import Mathlib

/-!
Verification of the smartap analysis tooling: a binary frame decoder and a
capture-corpus classifier.

The byte layout (sync marker 0x7e, version byte, 4-byte little-endian message
id at bytes 2-5, 2-byte little-endian length at bytes 6-7, 8-byte header) is
taken from src/tools/decode_40byte_message.py.  The corpus aggregation
(grouping records by their payload_length field, per-bucket unique-pattern
counts, first-byte histograms, the full-list-vs-top-5 report rule, and the
envelope search) is taken from src/tools/analyze_message_inventory.py.
The decoder error taxonomy and the classifier bookkeeping (Malformed bucket,
ignored count) exist only in the specification and are modelled from it where
noted.

Bytes are modelled as natural numbers below 256 inside lists; hex payloads as
lists of characters, matching the hex strings the scripts manipulate.
-/

namespace Smartap

/-- The fixed frame header size: 1 sync + 1 version + 4 id + 2 length bytes
(src/tools/decode_40byte_message.py lines 26-34). -/
def header_size : Nat := 8

/-- The protocol sync marker, expected as byte 0 of every frame
(src/tools/decode_40byte_message.py line 27: expected 0x7e). -/
def syncMarker : Nat := 0x7e

/-- A decoded frame: header fields plus payload
(spec section 3, layout from src/tools/decode_40byte_message.py). -/
structure Frame where
  sync : Nat
  version : Nat
  message_id : Nat
  declared_length : Nat
  payload : List Nat
deriving DecidableEq

/-- Modelled from the spec: the decode error taxonomy of section 7
(TooShort, BadSync, LengthMismatch carrying declared and actual lengths);
no decode function exists in src, only inline unpacking in
src/tools/decode_40byte_message.py. -/
inductive DecodeError where
  | TooShort
  | BadSync
  | LengthMismatch (declared : Nat) (actual : Nat)
deriving DecidableEq

/-- Modelled from the spec: decode (section 4.1), absent from src as a
function.  Checks are performed in the order the spec lists them: TooShort
when fewer than header_size bytes, then BadSync on the first byte, then
LengthMismatch.  Field extraction follows src/tools/decode_40byte_message.py
lines 30-34: message id is the little-endian value of bytes 2-5, declared
length the little-endian value of bytes 6-7; the payload is everything after
the 8-byte header. -/
def decode : List Nat → Except DecodeError Frame
  | s :: v :: i0 :: i1 :: i2 :: i3 :: l0 :: l1 :: rest =>
    if s = syncMarker then
      if l0 + l1 * 256 = rest.length then
        Except.ok
          ⟨s, v, i0 + i1 * 256 + i2 * 65536 + i3 * 16777216,
           l0 + l1 * 256, rest⟩
      else
        Except.error (DecodeError.LengthMismatch (l0 + l1 * 256) rest.length)
    else
      Except.error DecodeError.BadSync
  | _ => Except.error DecodeError.TooShort

/-- The little-endian value of bytes 2-5 of a raw buffer
(src/tools/decode_40byte_message.py line 30). -/
def messageIdOf (raw : List Nat) : Nat :=
  raw.getD 2 0 + raw.getD 3 0 * 256 + raw.getD 4 0 * 65536 +
    raw.getD 5 0 * 16777216

/-- The little-endian value of bytes 6-7 of a raw buffer
(src/tools/decode_40byte_message.py line 33). -/
def declaredLenOf (raw : List Nat) : Nat :=
  raw.getD 6 0 + raw.getD 7 0 * 256

/-- Modelled from the spec: the frame encoder of the round-trip property
(section 8); no encoder exists in src.  Header fields are serialized
little-endian with the widths of src/tools/decode_40byte_message.py
(4-byte id, 2-byte length), followed by the payload. -/
def encode (f : Frame) : List Nat :=
  f.sync :: f.version ::
    f.message_id % 256 :: f.message_id / 256 % 256 ::
    f.message_id / 65536 % 256 :: f.message_id / 16777216 % 256 ::
    f.declared_length % 256 :: f.declared_length / 256 % 256 ::
    f.payload

lemma exists_headerSplit (raw : List Nat) (h : header_size ≤ raw.length) :
    ∃ b0 b1 b2 b3 b4 b5 b6 b7 t,
      raw = b0 :: b1 :: b2 :: b3 :: b4 :: b5 :: b6 :: b7 :: t := by
  match raw with
  | [] => simp [header_size] at h
  | [_] => simp [header_size] at h
  | [_, _] => simp [header_size] at h
  | [_, _, _] => simp [header_size] at h
  | [_, _, _, _] => simp [header_size] at h
  | [_, _, _, _, _] => simp [header_size] at h
  | [_, _, _, _, _, _] => simp [header_size] at h
  | [_, _, _, _, _, _, _] => simp [header_size] at h
  | b0 :: b1 :: b2 :: b3 :: b4 :: b5 :: b6 :: b7 :: t =>
    exact ⟨b0, b1, b2, b3, b4, b5, b6, b7, t, rfl⟩

/-- C1: every raw buffer shorter than header_size decodes to the TooShort
error and to no other error. -/
theorem decode_tooShort (raw : List Nat) (h : raw.length < header_size) :
    decode raw = Except.error DecodeError.TooShort := by
  match raw with
  | [] => rfl
  | [_] => rfl
  | [_, _] => rfl
  | [_, _, _] => rfl
  | [_, _, _, _] => rfl
  | [_, _, _, _, _] => rfl
  | [_, _, _, _, _, _] => rfl
  | [_, _, _, _, _, _, _] => rfl
  | _ :: _ :: _ :: _ :: _ :: _ :: _ :: _ :: t =>
    simp [header_size] at h
    omega

/-- Witness for C1 at the one-byte buffer [0x7e]. -/
theorem decode_tooShort_witness :
    [126].length < header_size ∧
      decode [126] = Except.error DecodeError.TooShort :=
  ⟨by decide, decode_tooShort [126] (by decide)⟩

/-- A 9-byte buffer whose sync byte is 0 and whose declared length (5) differs
from its actual payload length (1). -/
def c2raw : List Nat := [0, 0, 0, 0, 0, 0, 5, 0, 0]

/-- C2 counterexample: a buffer of at least header_size bytes whose declared
length differs from the actual payload length, yet decode reports BadSync,
not LengthMismatch, because the sync check comes first. -/
theorem badSync_shadows_lengthMismatch :
    header_size ≤ c2raw.length ∧
      declaredLenOf c2raw ≠ c2raw.length - header_size ∧
      decode c2raw = Except.error DecodeError.BadSync := by
  refine ⟨by decide, by decide, rfl⟩

/-- C2 (amended): for every buffer of at least header_size bytes whose first
byte is the sync marker and whose little-endian length field differs from the
actual payload length, decode fails with LengthMismatch carrying both the
declared and the actual value. -/
theorem decode_lengthMismatch (raw : List Nat)
    (h8 : header_size ≤ raw.length)
    (hsync : raw.getD 0 0 = syncMarker)
    (hmm : declaredLenOf raw ≠ raw.length - header_size) :
    decode raw =
      Except.error
        (DecodeError.LengthMismatch (declaredLenOf raw)
          (raw.length - header_size)) := by
  obtain ⟨b0, b1, b2, b3, b4, b5, b6, b7, t, rfl⟩ := exists_headerSplit raw h8
  have hs : b0 = syncMarker := hsync
  have hlen : (b0 :: b1 :: b2 :: b3 :: b4 :: b5 :: b6 :: b7 :: t).length
      - header_size = t.length := by
    simp [header_size]
  have hd : declaredLenOf (b0 :: b1 :: b2 :: b3 :: b4 :: b5 :: b6 :: b7 :: t)
      = b6 + b7 * 256 := rfl
  rw [hlen, hd] at hmm ⊢
  simp only [decode, hs, if_pos rfl, if_neg hmm]
  simp

/-- Witness for C2's amended theorem at a 9-byte buffer with good sync,
declared length 5 and actual payload length 1. -/
theorem decode_lengthMismatch_witness :
    decode [126, 0, 0, 0, 0, 0, 5, 0, 0] =
      Except.error (DecodeError.LengthMismatch 5 1) :=
  decode_lengthMismatch [126, 0, 0, 0, 0, 0, 5, 0, 0]
    (by decide) (by decide) (by decide)

/-- The one 40-byte pattern hard-coded in src/tools/decode_40byte_message.py
line 10, as bytes: hex 7e03ffffff0f1e0001110f00000008000080550300
00507d6dca1200000000000000000000000029. -/
def ex40 : List Nat :=
  [0x7e, 0x03, 0xff, 0xff, 0xff, 0x0f, 0x1e, 0x00,
   0x01, 0x11, 0x0f, 0x00, 0x00, 0x00, 0x08, 0x00,
   0x00, 0x80, 0x55, 0x03, 0x00, 0x00, 0x50, 0x7d,
   0x6d, 0xca, 0x12, 0x00, 0x00, 0x00, 0x00, 0x00,
   0x00, 0x00, 0x00, 0x00, 0x00, 0x00, 0x00, 0x29]

/-- C5 counterexample: the 40-byte example's length field (bytes 6-7 = 1e 00)
is 30, not 40 - 8 = 32, so decode does not succeed on it: it fails with
LengthMismatch 30 32. -/
theorem ex40_lengthMismatch :
    ex40.length = 40 ∧ declaredLenOf ex40 = 30 ∧
      decode ex40 = Except.error (DecodeError.LengthMismatch 30 32) := by
  refine ⟨rfl, rfl, rfl⟩

/-- C5 (amended): whenever decode succeeds, the frame's message_id is the
little-endian value of bytes 2-5 and its declared_length the little-endian
value of bytes 6-7; but the 40-byte example payload itself fails to decode
with LengthMismatch 30 32 (declared 30, actual 32), so it is not placed in
any length bucket. -/
theorem decode_fields (raw : List Nat) (f : Frame)
    (h : decode raw = Except.ok f) :
    f.message_id = messageIdOf raw ∧ f.declared_length = declaredLenOf raw ∧
      decode ex40 = Except.error (DecodeError.LengthMismatch 30 32) := by
  have h8 : header_size ≤ raw.length := by
    by_contra hlt
    rw [decode_tooShort raw (by omega)] at h
    exact absurd h (by simp)
  obtain ⟨b0, b1, b2, b3, b4, b5, b6, b7, t, rfl⟩ := exists_headerSplit raw h8
  refine ⟨?_, ?_, rfl⟩ <;>
    · simp only [decode] at h
      split_ifs at h with hs hl
      · simp only [Except.ok.injEq] at h
        subst h
        rfl

/-- Witness for C5's amended theorem at a well-formed 40-byte buffer whose
length field is 32. -/
theorem decode_fields_witness :
    (Frame.mk 126 3 268435455 32 (List.replicate 32 0)).message_id =
        messageIdOf ([126, 3, 255, 255, 255, 15, 32, 0] ++
          List.replicate 32 0) ∧
      (Frame.mk 126 3 268435455 32 (List.replicate 32 0)).declared_length =
        declaredLenOf ([126, 3, 255, 255, 255, 15, 32, 0] ++
          List.replicate 32 0) ∧
      decode ex40 = Except.error (DecodeError.LengthMismatch 30 32) :=
  decode_fields ([126, 3, 255, 255, 255, 15, 32, 0] ++ List.replicate 32 0)
    (Frame.mk 126 3 268435455 32 (List.replicate 32 0)) rfl

/-- C8: round-trip.  For every Frame whose sync is the sync marker (the data
model's invariant), whose message_id fits the 4-byte field, whose
declared_length fits the 2-byte field and whose payload has exactly
declared_length bytes, decoding the encoding yields the frame back. -/
theorem decode_encode (f : Frame) (hs : f.sync = syncMarker)
    (hm : f.message_id < 4294967296) (hd : f.declared_length < 65536)
    (hp : f.payload.length = f.declared_length) :
    decode (encode f) = Except.ok f := by
  obtain ⟨s, v, m, d, p⟩ := f
  simp only at hs hm hd hp
  subst hs
  simp only [encode, decode, if_pos rfl]
  rw [if_pos trivial,
    if_pos (show d % 256 + d / 256 % 256 * 256 = p.length by omega)]
  simp only [Except.ok.injEq, Frame.mk.injEq]
  refine ⟨trivial, trivial, by omega, by omega, trivial⟩

/-- Witness for C8 at a concrete frame with a 2-byte payload. -/
theorem decode_encode_witness :
    decode (encode (Frame.mk 126 3 5 2 [7, 8])) =
      Except.ok (Frame.mk 126 3 5 2 [7, 8]) :=
  decode_encode (Frame.mk 126 3 5 2 [7, 8]) rfl (by decide) (by decide) rfl

/-- One captured message record as read from the capture files, with the
fields src/tools/analyze_message_inventory.py uses: payload_length,
payload_hex (a hex string, modelled as its character list) and
message_num. -/
structure CaptureRecord where
  payload_length : Nat
  payload_hex : List Char
  message_num : Nat
deriving DecidableEq

/-- The records of one length bucket: main groups every record by its
payload_length field (src/tools/analyze_message_inventory.py lines 31-35). -/
def bucketRecs (l : Nat) (rs : List CaptureRecord) : List CaptureRecord :=
  rs.filter (fun r => r.payload_length == l)

/-- Size of one length bucket
(src/tools/analyze_message_inventory.py lines 40-42). -/
def bucketCount (l : Nat) (rs : List CaptureRecord) : Nat :=
  (bucketRecs l rs).length

/-- The payload patterns of one bucket, in record order
(src/tools/analyze_message_inventory.py line 53). -/
def bucketPatterns (l : Nat) (rs : List CaptureRecord) : List (List Char) :=
  (bucketRecs l rs).map CaptureRecord.payload_hex

/-- Number of distinct payload patterns in one bucket
(src/tools/analyze_message_inventory.py lines 53-54). -/
def uniquePatternCount (l : Nat) (rs : List CaptureRecord) : Nat :=
  (bucketPatterns l rs).dedup.length

/-- Occurrences of one payload pattern inside one bucket
(src/tools/analyze_message_inventory.py line 53). -/
def patternCount (l : Nat) (p : List Char) (rs : List CaptureRecord) : Nat :=
  (bucketPatterns l rs).count p

/-- First-byte histogram entry for hex digit pair b in one bucket: the
records with at least two hex characters whose first two hex characters are
b (src/tools/analyze_message_inventory.py lines 59-64). -/
def firstByteCount (l : Nat) (b : List Char) (rs : List CaptureRecord) :
    Nat :=
  ((bucketRecs l rs).filter
    (fun r => decide (2 ≤ r.payload_hex.length ∧ r.payload_hex.take 2 = b))
    ).length

/-- C6: the aggregate counts are order-insensitive: permuting the input
records changes no bucket count, unique-pattern count, pattern occurrence
count or first-byte histogram entry. -/
theorem classify_perm_invariant (rs rs' : List CaptureRecord)
    (hp : rs.Perm rs') :
    (∀ l, bucketCount l rs = bucketCount l rs') ∧
    (∀ l, uniquePatternCount l rs = uniquePatternCount l rs') ∧
    (∀ l p, patternCount l p rs = patternCount l p rs') ∧
    (∀ l b, firstByteCount l b rs = firstByteCount l b rs') := by
  refine ⟨fun l => ?_, fun l => ?_, fun l p => ?_, fun l b => ?_⟩
  · exact (hp.filter (fun r => r.payload_length == l)).length_eq
  · exact (((hp.filter (fun r => r.payload_length == l)).map
      CaptureRecord.payload_hex).dedup).length_eq
  · exact (((hp.filter (fun r => r.payload_length == l)).map
      CaptureRecord.payload_hex)).countP_eq (fun q => q == p)
  · exact ((hp.filter (fun r => r.payload_length == l)).filter
      (fun r =>
        decide (2 ≤ r.payload_hex.length ∧ r.payload_hex.take 2 = b))
      ).length_eq

/-- A concrete record used in the permutation witness. -/
def recA : CaptureRecord := ⟨1, ['a', 'b'], 1⟩

/-- A second concrete record used in the permutation witness. -/
def recB : CaptureRecord := ⟨1, ['c', 'd'], 2⟩

/-- Witness for C6 at a two-record corpus and its transposition. -/
theorem classify_perm_invariant_witness :
    bucketCount 1 [recB, recA] = bucketCount 1 [recA, recB] ∧
      uniquePatternCount 1 [recB, recA] = uniquePatternCount 1 [recA, recB] :=
  ⟨(classify_perm_invariant [recB, recA] [recA, recB]
      (List.Perm.swap recA recB [])).1 1,
   (classify_perm_invariant [recB, recA] [recA, recB]
      (List.Perm.swap recA recB [])).2.1 1⟩

lemma count_map_payload_length (rs : List CaptureRecord) (n : Nat) :
    (rs.map CaptureRecord.payload_length).count n
      = rs.countP (fun r => r.payload_length == n) := by
  induction rs with
  | nil => rfl
  | cons x xs ih =>
    by_cases h : x.payload_length = n
    · simp [List.count_cons, List.countP_cons, ih, h]
    · simp [List.count_cons, List.countP_cons, ih, h, Ne.symm h]

/-- C10: bucketing partitions the corpus by the payload_length field (not by
the hex string's length): each collected record lies in exactly the bucket
keyed by its own payload_length, and the bucket sizes over the occurring
lengths sum to the total number of collected records. -/
theorem bucket_partition (rs : List CaptureRecord) :
    (∀ r ∈ rs, ∀ l : Nat, (r ∈ bucketRecs l rs ↔ l = r.payload_length)) ∧
    (∑ l in (rs.map CaptureRecord.payload_length).toFinset,
        bucketCount l rs) = rs.length := by
  constructor
  · intro r hr l
    simp only [bucketRecs, List.mem_filter, beq_iff_eq]
    constructor
    · rintro ⟨-, h⟩
      exact h.symm
    · intro h
      exact ⟨hr, h.symm⟩
  · have h1 : ∀ l, bucketCount l rs
        = (rs.map CaptureRecord.payload_length).count l := by
      intro l
      rw [count_map_payload_length]
      exact (List.countP_eq_length_filter _ _).symm
    simp only [h1]
    have h2 := Multiset.toFinset_sum_count_eq
      ((rs.map CaptureRecord.payload_length : List Nat) : Multiset Nat)
    simp only [Multiset.coe_count, Multiset.coe_card] at h2
    rw [List.length_map] at h2
    exact h2

/-- The distinct patterns of one bucket in most-common-first order: sorted
by descending occurrence count, as the most_common calls of
src/tools/analyze_message_inventory.py lines 73 and 82 produce. -/
def mostCommon (l : Nat) (rs : List CaptureRecord) : List (List Char) :=
  List.insertionSort
    (fun p q => patternCount l q rs ≤ patternCount l p rs)
    (bucketPatterns l rs).dedup

/-- The pattern list the report shows for one bucket: the full most-common
list when the bucket has at most 10 unique patterns, otherwise only its
first 5 entries (src/tools/analyze_message_inventory.py lines 71-84:
the branch condition is unique_count <= 10). -/
def reportPatterns (l : Nat) (rs : List CaptureRecord) : List (List Char) :=
  if uniquePatternCount l rs ≤ 10 then mostCommon l rs
  else (mostCommon l rs).take 5

/-- A corpus with exactly 10 records of payload_length 1, all with distinct
one-character hex patterns. -/
def ex10 : List CaptureRecord :=
  [⟨1, ['0'], 0⟩, ⟨1, ['1'], 0⟩, ⟨1, ['2'], 0⟩, ⟨1, ['3'], 0⟩,
   ⟨1, ['4'], 0⟩, ⟨1, ['5'], 0⟩, ⟨1, ['6'], 0⟩, ⟨1, ['7'], 0⟩,
   ⟨1, ['8'], 0⟩, ⟨1, ['9'], 0⟩]

/-- C7 counterexample: a bucket with exactly 10 unique patterns, which is
not below the threshold 10, yet the report enumerates all 10 patterns
rather than only the top 5, because the source branches on
unique_count <= 10. -/
theorem threshold_boundary_counterexample :
    uniquePatternCount 1 ex10 = 10 ∧
      ¬ uniquePatternCount 1 ex10 < 10 ∧
      (reportPatterns 1 ex10).length = 10 := by
  exact ⟨by decide, by decide, by decide⟩

/-- C7 (amended): when a bucket's unique-pattern count is at most the
threshold 10, the report holds the full enumerated pattern list (a
permutation of the distinct patterns); when the count exceeds 10, the
report holds exactly 5 patterns and every shown pattern occurs at least as
often as every omitted one. -/
theorem report_threshold (l : Nat) (rs : List CaptureRecord) :
    (uniquePatternCount l rs ≤ 10 →
      (reportPatterns l rs).Perm (bucketPatterns l rs).dedup) ∧
    (10 < uniquePatternCount l rs →
      (reportPatterns l rs).length = 5 ∧
        ∀ p ∈ reportPatterns l rs, ∀ q ∈ (bucketPatterns l rs).dedup,
          q ∉ reportPatterns l rs →
            patternCount l q rs ≤ patternCount l p rs) := by
  have hperm : (mostCommon l rs).Perm (bucketPatterns l rs).dedup :=
    List.perm_insertionSort _ _
  have hlen : (mostCommon l rs).length = uniquePatternCount l rs :=
    hperm.length_eq
  constructor
  · intro hle
    simp only [reportPatterns]
    rw [if_pos hle]
    exact hperm
  · intro hgt
    simp only [reportPatterns]
    rw [if_neg (by omega)]
    constructor
    · rw [List.length_take]
      omega
    · intro p hpmem q hq hqnot
      have hsorted : List.Pairwise
          (fun p q => patternCount l q rs ≤ patternCount l p rs)
          (mostCommon l rs) := by
        haveI ht : IsTotal (List Char)
            (fun p q => patternCount l q rs ≤ patternCount l p rs) :=
          ⟨fun a b => le_total _ _⟩
        haveI htr : IsTrans (List Char)
            (fun p q => patternCount l q rs ≤ patternCount l p rs) :=
          ⟨fun a b c hab hbc => le_trans hbc hab⟩
        exact List.sorted_insertionSort _ _
      have hsplit := (List.take_append_drop 5 (mostCommon l rs)).symm
      rw [hsplit] at hsorted
      obtain ⟨-, -, hcross⟩ := List.pairwise_append.mp hsorted
      have hqM : q ∈ mostCommon l rs := hperm.mem_iff.mpr hq
      have hqdrop : q ∈ (mostCommon l rs).drop 5 := by
        have : q ∈ (mostCommon l rs).take 5 ++ (mostCommon l rs).drop 5 := by
          rw [List.take_append_drop]
          exact hqM
        rcases List.mem_append.mp this with h | h
        · exact absurd h hqnot
        · exact h
      exact hcross p hpmem q hqdrop

/-- Witness for C7's amended theorem at the 10-pattern corpus: 10 is at most
the threshold, so the report is the full pattern list. -/
theorem report_threshold_witness :
    uniquePatternCount 1 ex10 ≤ 10 ∧
      (reportPatterns 1 ex10).Perm (bucketPatterns 1 ex10).dedup :=
  ⟨by decide, (report_threshold 1 ex10).1 (by decide)⟩

/-- A record whose payload_length field (3) disagrees with its hex string
length (2 characters, i.e. 1 byte). -/
def recOdd : CaptureRecord := ⟨3, ['a', 'b'], 1⟩

/-- Witness for C10 at a one-record corpus whose payload_length field
disagrees with its hex string length. -/
theorem bucket_partition_witness :
    recOdd ∈ bucketRecs 3 [recOdd] ∧
      (∑ l in ([recOdd].map CaptureRecord.payload_length).toFinset,
        bucketCount l [recOdd]) = [recOdd].length :=
  ⟨((bucket_partition [recOdd]).1 recOdd (by simp) 3).mpr rfl,
   (bucket_partition [recOdd]).2⟩

/-- Value of one hex character when it is a hex digit, upper or lower case,
as the hex parsing the scripts rely on accepts. -/
def hexDigitVal (c : Char) : Option Nat :=
  if '0' ≤ c ∧ c ≤ '9' then some (c.toNat - 48)
  else if 'a' ≤ c ∧ c ≤ 'f' then some (c.toNat - 87)
  else if 'A' ≤ c ∧ c ≤ 'F' then some (c.toNat - 55)
  else none

/-- Modelled from the spec: reading a record's hex payload into bytes (the
InputUnreadable case of section 7); src converts hex only via the
bytes.fromhex call on the hard-coded pattern of decode_40byte_message.py.
Fails on an odd number of characters or on any non-hex character. -/
def hexToBytes : List Char → Option (List Nat)
  | [] => some []
  | [_] => none
  | c1 :: c2 :: rest =>
    match hexDigitVal c1, hexDigitVal c2, hexToBytes rest with
    | some hi, some lo, some bs => some ((hi * 16 + lo) :: bs)
    | _, _, _ => none

/-- Modelled from the spec: the classifier's bucket keys (section 4.2), the
observed lengths plus the synthetic Malformed key; absent from src, whose
main only groups records by their payload_length field. -/
inductive BucketKey where
  | malformed
  | ofLength (n : Nat)
deriving DecidableEq

/-- Modelled from the spec: the classifier's disposition of one input record
(section 4.2), absent from src.  A record whose hex payload cannot be read
is skipped (key none, counted as ignored); a record whose bytes fail frame
decoding is bucketed under the synthetic Malformed key; a decoded frame is
bucketed under its declared length. -/
def recordKey (r : CaptureRecord) : Option BucketKey :=
  match hexToBytes r.payload_hex with
  | none => none
  | some bs =>
    match decode bs with
    | Except.ok f => some (BucketKey.ofLength f.declared_length)
    | Except.error _ => some BucketKey.malformed

/-- Modelled from the spec: the size of one classifier bucket
(section 4.2). -/
def keyCount (k : BucketKey) (rs : List CaptureRecord) : Nat :=
  rs.countP (fun r => decide (recordKey r = some k))

/-- Modelled from the spec: the ignored_count of section 4.2, the number of
records skipped because their hex payload is unreadable. -/
def ignoredCount (rs : List CaptureRecord) : Nat :=
  rs.countP (fun r => decide (recordKey r = none))

/-- Modelled from the spec: the bucket keys that occur in one classification
run. -/
def occurringKeys (rs : List CaptureRecord) : Finset BucketKey :=
  (rs.filterMap recordKey).toFinset

lemma count_filterMap_recordKey (k : BucketKey) (rs : List CaptureRecord) :
    (rs.filterMap recordKey).count k
      = rs.countP (fun r => decide (recordKey r = some k)) := by
  induction rs with
  | nil => rfl
  | cons x xs ih =>
    cases hx : recordKey x with
    | none => simp [List.filterMap_cons, hx, List.countP_cons, ih]
    | some q =>
      by_cases hk : k = q
      · subst hk
        simp [List.filterMap_cons, hx, List.countP_cons, List.count_cons,
          ih]
      · simp [List.filterMap_cons, hx, List.countP_cons, List.count_cons,
          ih, hk, Ne.symm hk]

lemma length_filterMap_recordKey (rs : List CaptureRecord) :
    (rs.filterMap recordKey).length + ignoredCount rs = rs.length := by
  induction rs with
  | nil => rfl
  | cons x xs ih =>
    cases hx : recordKey x with
    | none =>
      simp only [ignoredCount, List.filterMap_cons, hx, List.countP_cons]
        at ih ⊢
      simp [hx]
      omega
    | some q =>
      simp only [ignoredCount, List.filterMap_cons, hx, List.countP_cons]
        at ih ⊢
      simp [hx]
      omega

/-- C3: every input record whose frame decodes to BadSync or LengthMismatch
is bucketed under the synthetic Malformed key, and the bucket counts over
the occurring keys (Malformed included) plus the ignored count sum to the
total number of input records. -/
theorem classify_accounts (rs : List CaptureRecord) :
    (∀ r ∈ rs, ∀ bs, hexToBytes r.payload_hex = some bs →
        (decode bs = Except.error DecodeError.BadSync ∨
          ∃ d a,
            decode bs = Except.error (DecodeError.LengthMismatch d a)) →
        recordKey r = some BucketKey.malformed) ∧
    (∑ k in occurringKeys rs, keyCount k rs) + ignoredCount rs
      = rs.length := by
  constructor
  · intro r hr bs hbs herr
    have hex : ∃ e, decode bs = Except.error e := by
      rcases herr with h | ⟨d, a, h⟩
      · exact ⟨_, h⟩
      · exact ⟨_, h⟩
    obtain ⟨e, he⟩ := hex
    simp [recordKey, hbs, he]
  · have h1 : ∀ k, keyCount k rs = (rs.filterMap recordKey).count k :=
      fun k => (count_filterMap_recordKey k rs).symm
    simp only [occurringKeys, h1]
    have h2 : (∑ k in (rs.filterMap recordKey).toFinset,
        (rs.filterMap recordKey).count k) = (rs.filterMap recordKey).length := by
      have h3 := Multiset.toFinset_sum_count_eq
        ((rs.filterMap recordKey : List BucketKey) : Multiset BucketKey)
      simp only [Multiset.coe_count, Multiset.coe_card] at h3
      exact h3
    rw [h2]
    exact length_filterMap_recordKey rs

/-- A record whose hex payload decodes to a frame with a bad sync byte and a
mismatched length field. -/
def cBad : CaptureRecord :=
  ⟨9, ['0', '0', '0', '0', '0', '0', '0', '0', '0', '0', '0', '0',
       '0', '5', '0', '0', '0', '0'], 1⟩

/-- A record whose payload is not a hex string. -/
def cNonHex : CaptureRecord := ⟨1, ['z', 'z'], 2⟩

/-- A record whose hex payload decodes successfully: sync 0x7e, declared
length 1, one payload byte. -/
def cGood : CaptureRecord :=
  ⟨9, ['7', 'e', '0', '0', '0', '0', '0', '0', '0', '0', '0', '1',
       '0', '0', '0', '7'], 3⟩

/-- A three-record corpus with one malformed, one unreadable and one good
record. -/
def exCorpus : List CaptureRecord := [cBad, cNonHex, cGood]

/-- Witness for C3 at the three-record corpus: the bad-sync record lands in
the Malformed bucket, and bucket counts plus the ignored count sum to 3. -/
theorem classify_accounts_witness :
    recordKey cBad = some BucketKey.malformed ∧
      (∑ k in occurringKeys exCorpus, keyCount k exCorpus)
          + ignoredCount exCorpus = exCorpus.length :=
  ⟨(classify_accounts exCorpus).1 cBad (by decide) c2raw rfl
      (Or.inl rfl),
   (classify_accounts exCorpus).2⟩

/-- C4: a record whose processing fails is isolated to itself: inserting an
unreadable record anywhere in the corpus changes no bucket count of the
final report, and increments its ignored_count by exactly one. -/
theorem record_error_isolated (l1 l2 : List CaptureRecord)
    (b : CaptureRecord) (hb : recordKey b = none) :
    (∀ k, keyCount k (l1 ++ b :: l2) = keyCount k (l1 ++ l2)) ∧
      ignoredCount (l1 ++ b :: l2) = ignoredCount (l1 ++ l2) + 1 := by
  constructor
  · intro k
    simp [keyCount, List.countP_append, List.countP_cons, hb]
  · simp [ignoredCount, List.countP_append, List.countP_cons, hb]
    omega

/-- Witness for C4: appending the unreadable record to a one-record corpus
leaves the length-1 bucket count unchanged and raises the ignored count by
one. -/
theorem record_error_isolated_witness :
    keyCount (BucketKey.ofLength 1) ([cGood] ++ cNonHex :: [])
        = keyCount (BucketKey.ofLength 1) ([cGood] ++ []) ∧
      ignoredCount ([cGood] ++ cNonHex :: [])
        = ignoredCount ([cGood] ++ []) + 1 :=
  ⟨(record_error_isolated [cGood] [] cNonHex rfl).1 (BucketKey.ofLength 1),
   (record_error_isolated [cGood] [] cNonHex rfl).2⟩

/-- The envelope (type 0x01) search of
src/tools/analyze_message_inventory.py lines 119-130: a record matches when
its hex payload has at least 20 characters, starts with 7e03, and (after a
redundant check that more than 16 characters exist) has 01 at hex offset
16, i.e. at payload byte 0. -/
def isEnvelope (h : List Char) : Bool :=
  if 20 ≤ h.length then
    if h.take 4 = ['7', 'e', '0', '3'] then
      if 16 < h.length then
        if (h.drop 16).take 2 = ['0', '1'] then true else false
      else false
    else false
  else false

/-- C9: the envelope search matches exactly the records whose hex payload
has at least 20 characters (10 bytes), starts with 7e03, and has 01 at hex
offset 16; in particular a payload shorter than 10 bytes, or one not
starting with bytes 0x7e 0x03, never matches, whatever its payload byte 0
is. -/
theorem isEnvelope_iff (h : List Char) :
    (isEnvelope h = true ↔
      20 ≤ h.length ∧ h.take 4 = ['7', 'e', '0', '3'] ∧
        (h.drop 16).take 2 = ['0', '1']) ∧
    (h.length < 20 → isEnvelope h = false) ∧
    (h.take 4 ≠ ['7', 'e', '0', '3'] → isEnvelope h = false) := by
  refine ⟨?_, ?_, ?_⟩
  · unfold isEnvelope
    split_ifs with h1 h2 h3 h4 <;> simp_all
    omega
  · intro hlt
    unfold isEnvelope
    rw [if_neg (by omega)]
  · intro hne
    unfold isEnvelope
    split_ifs <;> simp_all

/-- Witness for C9: a two-character payload whose byte 0 would be 0x01 is
still no envelope match, being shorter than 10 bytes. -/
theorem isEnvelope_iff_witness :
    (['0', '1'] : List Char).length < 20 ∧
      isEnvelope ['0', '1'] = false :=
  ⟨by decide, (isEnvelope_iff ['0', '1']).2.1 (by decide)⟩

end Smartap
